import Mathlib

/-!
Shallow embedding of the matching/retrieval core of the candidate-matching
repository (`src/services/matching/vector-matching.service.ts`), together with
proofs about its behaviour.

Modelling conventions:
* Relational records (Prisma `Candidate`, `JobPosition`) are structures;
  nullable columns are `Option Int`.
* The external embedding model is abstracted: an embedding is represented by
  the text it was generated from, and a failure oracle `embedFail : String →
  Bool` says whether the external call for a given text throws.  The service
  code never inspects the numeric vector, so this is faithful for every
  property stated here.
* A ChromaDB collection is a keyed store `List (String × IndexEntry α)`;
  `upsert` replaces the entry for an id, `get` looks it up.  `query` filters
  entries by the `where` clause and reports a distance per returned entry via
  an oracle `d : String → String → Option ℚ` (query embedding, stored
  embedding); the ascending-distance ordering performed by ChromaDB is not
  modelled since no property below depends on rank order, and `Option`
  mirrors the `number | null` distance type of the client library.
* JavaScript `x || undefined` on a nullable number maps `null` and `0` to
  `undefined` (`orUndef`); `x || 0` maps `null` to `0` (`Option.getD · 0`).
* JavaScript `Array.prototype.join(',')` / `String.prototype.split(',')` are
  modelled character-exactly by `joinComma` / `splitComma` (in particular
  `"".split(',') = [""]`).
* `whereClause` objects are association lists with JavaScript object-key
  assignment semantics: assigning an existing key overwrites it (`setKey`).
* Thrown errors are the inductive `SvcError`; `errorMessage` reproduces the
  exact message strings of the source, which the HTTP controller uses to
  discriminate error kinds.
-/

/-- JavaScript `x || undefined` for a nullable number: `null` and `0` become
`undefined`. -/
def orUndef : Option Int → Option Int
  | none => none
  | some n => if n = 0 then none else some n

/-- Character-level model of JavaScript `split(',')`: splits at every comma,
keeping empty segments; the empty string yields `[[]]`. -/
def jsSplitComma : List Char → List (List Char)
  | [] => [[]]
  | c :: cs =>
    if c = ',' then
      [] :: jsSplitComma cs
    else
      match jsSplitComma cs with
      | [] => [[c]]
      | h :: t => (c :: h) :: t

/-- Character-level model of JavaScript `join(',')`. -/
def joinCommaChars : List (List Char) → List Char
  | [] => []
  | [x] => x
  | x :: y :: xs => x ++ ',' :: joinCommaChars (y :: xs)

/-- `skills.join(',')` as used when flattening list-valued fields into
ChromaDB metadata. -/
def joinComma (l : List String) : String :=
  ⟨joinCommaChars (l.map String.data)⟩

/-- `s.split(',')` as used when reconstructing list-valued fields from
ChromaDB metadata. -/
def splitComma (s : String) : List String :=
  (jsSplitComma s.data).map String.mk

/-- Character-level model of JavaScript `s.toLowerCase()`. -/
def jsToLower (s : String) : String :=
  ⟨s.data.map Char.toLower⟩

/-- Prisma `Candidate` row (the columns the matching service reads). -/
structure Candidate where
  id : String
  firstName : String
  lastName : String
  email : String
  skills : List String
  experience : Int
  location : String
  availability : String
  salary_expectation : Option Int
deriving DecidableEq, Repr

/-- Prisma `JobStatus` enum. -/
inductive JobStatus where
  | ACTIVE
  | INACTIVE
  | FILLED
deriving DecidableEq, Repr

/-- Prisma `JobPosition` row (the columns the matching service reads). -/
structure JobPosition where
  id : String
  title : String
  company : String
  description : String
  required_skills : List String
  preferred_skills : List String
  experience_level : String
  location : String
  remote_ok : Bool
  salary_min : Option Int
  salary_max : Option Int
  employment_type : String
  status : JobStatus
deriving DecidableEq, Repr

/-- The relational store visible to the service. -/
structure Db where
  candidates : List Candidate
  jobs : List JobPosition
deriving DecidableEq, Repr

/-- `prisma.candidate.findUnique({ where: { id } })`. -/
def findUniqueCandidate (db : Db) (id : String) : Option Candidate :=
  db.candidates.find? (fun c => c.id == id)

/-- `prisma.jobPosition.findUnique({ where: { id } })`. -/
def findUniqueJob (db : Db) (id : String) : Option JobPosition :=
  db.jobs.find? (fun j => j.id == id)

/-- The `CandidateVector` interface of the service. -/
structure CandidateVector where
  id : String
  firstName : String
  lastName : String
  email : String
  skills : List String
  experience : Int
  location : String
  availability : String
  salaryExpectation : Option Int
  combinedText : String
deriving DecidableEq, Repr

/-- The `JobVector` interface of the service. -/
structure JobVector where
  id : String
  title : String
  company : String
  description : String
  requiredSkills : List String
  preferredSkills : List String
  experienceLevel : String
  location : String
  remoteOk : Bool
  salaryMin : Option Int
  salaryMax : Option Int
  employmentType : String
  combinedText : String
deriving DecidableEq, Repr

/-- `createCandidateText`: the canonical text rendered for a candidate. -/
def createCandidateText (candidate : CandidateVector) : String :=
  let skillsText := String.intercalate ", " candidate.skills
  candidate.firstName ++ " " ++ candidate.lastName ++ " - Skills: " ++ skillsText ++
    " - Experience: " ++ toString candidate.experience ++ " years - Location: " ++
    candidate.location ++ " - Availability: " ++ candidate.availability

/-- `createJobText`: the canonical text rendered for a job. -/
def createJobText (job : JobVector) : String :=
  let requiredSkillsText := String.intercalate ", " job.requiredSkills
  let preferredSkillsText := String.intercalate ", " job.preferredSkills
  let remoteText := if job.remoteOk then "Remote work available" else "On-site work"
  job.title ++ " at " ++ job.company ++ " - " ++ job.description ++
    " - Required skills: " ++ requiredSkillsText ++
    " - Preferred skills: " ++ preferredSkillsText ++
    " - Experience level: " ++ job.experienceLevel ++
    " - Location: " ++ job.location ++ " - " ++ remoteText ++
    " - Employment type: " ++ job.employmentType

/-- The `CandidateVector` object built by `upsertCandidate` from a relational
row (availability lowercased, `salary_expectation || undefined`). -/
def candidateToVector (c : Candidate) : CandidateVector :=
  { id := c.id
    firstName := c.firstName
    lastName := c.lastName
    email := c.email
    skills := c.skills
    experience := c.experience
    location := c.location
    availability := jsToLower c.availability
    salaryExpectation := orUndef c.salary_expectation
    combinedText := "" }

/-- The `JobVector` object built by `upsertJob` from a relational row. -/
def jobToVector (j : JobPosition) : JobVector :=
  { id := j.id
    title := j.title
    company := j.company
    description := j.description
    requiredSkills := j.required_skills
    preferredSkills := j.preferred_skills
    experienceLevel := jsToLower j.experience_level
    location := j.location
    remoteOk := j.remote_ok
    salaryMin := orUndef j.salary_min
    salaryMax := orUndef j.salary_max
    employmentType := jsToLower j.employment_type
    combinedText := "" }

/-- Flat ChromaDB metadata stored for a candidate. -/
structure CandidateMetadata where
  firstName : String
  lastName : String
  email : String
  experience : Int
  location : String
  availability : String
  skillsCount : Int
  salaryExpectation : Int
  skills : String
deriving DecidableEq, Repr

/-- Flat ChromaDB metadata stored for a job. -/
structure JobMetadata where
  title : String
  company : String
  experienceLevel : String
  location : String
  remoteOk : Bool
  employmentType : String
  salaryMin : Int
  salaryMax : Int
  requiredSkillsCount : Int
  preferredSkillsCount : Int
  requiredSkills : String
  preferredSkills : String
deriving DecidableEq, Repr

/-- The metadata object prepared by `upsertCandidate`. -/
def candidateMetadata (c : Candidate) : CandidateMetadata :=
  { firstName := c.firstName
    lastName := c.lastName
    email := c.email
    experience := c.experience
    location := c.location
    availability := jsToLower c.availability
    skillsCount := (c.skills.length : Int)
    salaryExpectation := c.salary_expectation.getD 0
    skills := joinComma c.skills }

/-- The metadata object prepared by `upsertJob`. -/
def jobMetadata (j : JobPosition) : JobMetadata :=
  { title := j.title
    company := j.company
    experienceLevel := jsToLower j.experience_level
    location := j.location
    remoteOk := j.remote_ok
    employmentType := jsToLower j.employment_type
    salaryMin := j.salary_min.getD 0
    salaryMax := j.salary_max.getD 0
    requiredSkillsCount := (j.required_skills.length : Int)
    preferredSkillsCount := (j.preferred_skills.length : Int)
    requiredSkills := joinComma j.required_skills
    preferredSkills := joinComma j.preferred_skills }

/-- Errors thrown by the service, with the data needed to reproduce the
exact message strings of the source. -/
inductive SvcError where
  | storeNotFound (entity : String) (id : String)
  | indexNotFound (entity : String) (id : String)
  | embeddingFailed (text : String)
deriving DecidableEq, Repr

/-- The message string of each thrown error, exactly as in the source. -/
def errorMessage : SvcError → String
  | .storeNotFound entity id => entity ++ " with id " ++ id ++ " not found"
  | .indexNotFound entity id => entity ++ " " ++ id ++ " not found in vector database"
  | .embeddingFailed _ => "Failed to generate embedding"

/-- One stored entry of a ChromaDB collection (embedding represented by the
text it was generated from). -/
structure IndexEntry (α : Type) where
  embedding : String
  metadata : α
  document : String
deriving DecidableEq, Repr

/-- A ChromaDB collection, keyed by entity id. -/
abbrev VectorIndex (α : Type) : Type := List (String × IndexEntry α)

/-- `collection.get({ ids: [id] })`. -/
def lookupEntry {α : Type} (idx : VectorIndex α) (id : String) : Option (IndexEntry α) :=
  (List.find? (fun p => p.1 == id) idx).map (fun p => p.2)

/-- `collection.upsert` for one id: replace any existing entry, create if
absent. -/
def upsertEntry {α : Type} (idx : VectorIndex α) (id : String) (e : IndexEntry α) :
    VectorIndex α :=
  (id, e) :: List.filter (fun p => p.1 != id) idx

/-- One predicate of a ChromaDB `where` clause. -/
inductive Cond where
  | eqS (v : String)
  | eqB (v : Bool)
  | gte (v : Int)
  | lte (v : Int)
deriving DecidableEq, Repr

/-- A flat metadata value (string, number or boolean). -/
inductive MetaVal where
  | str (v : String)
  | int (v : Int)
  | bool (v : Bool)
deriving DecidableEq, Repr

/-- A `whereClause` object: field name to predicate, with JavaScript
object-key semantics (assignment to an existing key overwrites it). -/
abbrev WhereClause : Type := List (String × Cond)

/-- `whereClause.field = cond`: JavaScript object-key assignment. -/
def setKey : WhereClause → String → Cond → WhereClause
  | [], k, c => [(k, c)]
  | p :: rest, k, c => if p.1 = k then (k, c) :: rest else p :: setKey rest k c

/-- Read a field's predicate back from a `where` clause. -/
def lookupKey (w : WhereClause) (k : String) : Option Cond :=
  (List.find? (fun p => p.1 == k) w).map (fun p => p.2)

/-- ChromaDB evaluation of one predicate against a metadata value
(`$eq`, `$gte`, `$lte`). -/
def matchesCond : MetaVal → Cond → Bool
  | .str v, .eqS x => v == x
  | .bool v, .eqB x => v == x
  | .int v, .gte x => x ≤ v
  | .int v, .lte x => v ≤ x
  | _, _ => false

/-- ChromaDB evaluation of a `where` clause: conjunction of all predicates. -/
def matchesWhere (lookup : String → Option MetaVal) (w : WhereClause) : Bool :=
  List.all w (fun p =>
    match lookup p.1 with
    | some v => matchesCond v p.2
    | none => false)

/-- Field access on stored candidate metadata. -/
def candMetaLookup (m : CandidateMetadata) : String → Option MetaVal := fun k =>
  if k = "firstName" then some (.str m.firstName)
  else if k = "lastName" then some (.str m.lastName)
  else if k = "email" then some (.str m.email)
  else if k = "experience" then some (.int m.experience)
  else if k = "location" then some (.str m.location)
  else if k = "availability" then some (.str m.availability)
  else if k = "skillsCount" then some (.int m.skillsCount)
  else if k = "salaryExpectation" then some (.int m.salaryExpectation)
  else if k = "skills" then some (.str m.skills)
  else none

/-- Field access on stored job metadata. -/
def jobMetaLookup (m : JobMetadata) : String → Option MetaVal := fun k =>
  if k = "title" then some (.str m.title)
  else if k = "company" then some (.str m.company)
  else if k = "experienceLevel" then some (.str m.experienceLevel)
  else if k = "location" then some (.str m.location)
  else if k = "remoteOk" then some (.bool m.remoteOk)
  else if k = "employmentType" then some (.str m.employmentType)
  else if k = "salaryMin" then some (.int m.salaryMin)
  else if k = "salaryMax" then some (.int m.salaryMax)
  else if k = "requiredSkillsCount" then some (.int m.requiredSkillsCount)
  else if k = "preferredSkillsCount" then some (.int m.preferredSkillsCount)
  else if k = "requiredSkills" then some (.str m.requiredSkills)
  else if k = "preferredSkills" then some (.str m.preferredSkills)
  else none

/-- Caller filters of `findMatchingJobs`. -/
structure JobFilters where
  location : Option String := none
  remoteOk : Option Bool := none
  experienceLevel : Option String := none
  employmentType : Option String := none
  salaryMin : Option Int := none
  salaryMax : Option Int := none
deriving DecidableEq, Repr

/-- Caller filters of `findMatchingCandidates`. -/
structure CandidateFilters where
  location : Option String := none
  availability : Option String := none
  minExperience : Option Int := none
  maxExperience : Option Int := none
  maxSalaryExpectation : Option Int := none
deriving DecidableEq, Repr

/-- The `whereClause` built by `findMatchingJobs`, assignment by
assignment in source order. -/
def buildJobWhere (filters : JobFilters) : WhereClause :=
  let w : WhereClause := []
  let w := match filters.location with
    | some v => setKey w "location" (.eqS v)
    | none => w
  let w := match filters.remoteOk with
    | some v => setKey w "remoteOk" (.eqB v)
    | none => w
  let w := match filters.experienceLevel with
    | some v => setKey w "experienceLevel" (.eqS (jsToLower v))
    | none => w
  let w := match filters.employmentType with
    | some v => setKey w "employmentType" (.eqS (jsToLower v))
    | none => w
  let w := match filters.salaryMin with
    | some v => setKey w "salaryMax" (.gte v)
    | none => w
  match filters.salaryMax with
  | some v => setKey w "salaryMin" (.lte v)
  | none => w

/-- The `whereClause` built by `findMatchingCandidates`, assignment by
assignment in source order. -/
def buildCandidateWhere (filters : CandidateFilters) : WhereClause :=
  let w : WhereClause := []
  let w := match filters.location with
    | some v => setKey w "location" (.eqS v)
    | none => w
  let w := match filters.availability with
    | some v => setKey w "availability" (.eqS (jsToLower v))
    | none => w
  let w := match filters.minExperience with
    | some v => setKey w "experience" (.gte v)
    | none => w
  let w := match filters.maxExperience with
    | some v => setKey w "experience" (.lte v)
    | none => w
  match filters.maxSalaryExpectation with
  | some v => setKey w "salaryExpectation" (.lte v)
  | none => w

/-- `collection.query`: entries whose metadata satisfies the `where` clause,
up to `limit` many, each with the distance the index reports for it. -/
def queryIndex {α : Type} (d : String → String → Option ℚ) (idx : VectorIndex α)
    (queryEmbedding : String) (limit : Nat) (w : WhereClause)
    (metaLookup : α → String → Option MetaVal) : List (String × α × Option ℚ) :=
  List.take limit
    ((List.filter (fun p => matchesWhere (metaLookup p.2.metadata) w) idx).map
      (fun p => (p.1, p.2.metadata, d queryEmbedding p.2.embedding)))

/-- `upsertCandidate(candidateId)`: fetch the row, build the vector object and
canonical text, call the embedding model, and upsert into the candidates
collection.  `embedFail` is the failure oracle of the external embedding
call. -/
def upsertCandidate (embedFail : String → Bool) (db : Db)
    (idx : VectorIndex CandidateMetadata) (candidateId : String) :
    Except SvcError (VectorIndex CandidateMetadata) :=
  match findUniqueCandidate db candidateId with
  | none => .error (.storeNotFound "Candidate" candidateId)
  | some candidate =>
    let combinedText := createCandidateText (candidateToVector candidate)
    if embedFail combinedText then
      .error (.embeddingFailed combinedText)
    else
      .ok (upsertEntry idx candidateId
        { embedding := combinedText
          metadata := candidateMetadata candidate
          document := combinedText })

/-- `upsertJob(jobId)`: fetch the row, build the vector object and canonical
text, call the embedding model, and upsert into the jobs collection. -/
def upsertJob (embedFail : String → Bool) (db : Db)
    (idx : VectorIndex JobMetadata) (jobId : String) :
    Except SvcError (VectorIndex JobMetadata) :=
  match findUniqueJob db jobId with
  | none => .error (.storeNotFound "Job" jobId)
  | some job =>
    let combinedText := createJobText (jobToVector job)
    if embedFail combinedText then
      .error (.embeddingFailed combinedText)
    else
      .ok (upsertEntry idx jobId
        { embedding := combinedText
          metadata := jobMetadata job
          document := combinedText })

/-- The sequential `for` loop of the batch syncs: each record is awaited in
turn, and a thrown error propagates out of the loop at once. -/
def syncFold {α : Type}
    (step : VectorIndex α → String → Except SvcError (VectorIndex α)) :
    List String → VectorIndex α → Except SvcError (VectorIndex α)
  | [], idx => .ok idx
  | id :: rest, idx =>
    match step idx id with
    | .error e => .error e
    | .ok idx2 => syncFold step rest idx2

/-- The enumeration of `syncAllCandidates`:
`prisma.candidate.findMany({ select: { id: true } })`. -/
def syncCandidateIds (db : Db) : List String :=
  db.candidates.map (fun c => c.id)

/-- `syncAllCandidates()`. -/
def syncAllCandidates (embedFail : String → Bool) (db : Db)
    (idx : VectorIndex CandidateMetadata) :
    Except SvcError (VectorIndex CandidateMetadata) :=
  syncFold (upsertCandidate embedFail db) (syncCandidateIds db) idx

/-- The enumeration of `syncAllJobs`:
`prisma.jobPosition.findMany({ where: { status: 'ACTIVE' }, select: { id: true } })`. -/
def activeJobs (db : Db) : List JobPosition :=
  db.jobs.filter (fun j => j.status == JobStatus.ACTIVE)

/-- `syncAllJobs()`. -/
def syncAllJobs (embedFail : String → Bool) (db : Db)
    (idx : VectorIndex JobMetadata) : Except SvcError (VectorIndex JobMetadata) :=
  syncFold (upsertJob embedFail db) ((activeJobs db).map (fun j => j.id)) idx

/-- A `JobMatch` result row returned to callers. -/
structure JobMatch where
  id : String
  score : ℚ
  metadata : JobMetadata
  distance : ℚ
  job : JobVector
deriving DecidableEq, Repr

/-- A `CandidateMatch` result row returned to callers. -/
structure CandidateMatch where
  id : String
  score : ℚ
  metadata : CandidateMetadata
  distance : ℚ
  candidate : CandidateVector
deriving DecidableEq, Repr

/-- The `JobVector` summary reconstructed from stored metadata in the result
loop of `findMatchingJobs` (description left empty; skills split back from
their comma-joined form; the preferred-skills path drops empty strings;
`salaryMin`/`salaryMax` go through `as number || undefined`). -/
def jobVectorOfMetadata (id : String) (m : JobMetadata) : JobVector :=
  { id := id
    title := m.title
    company := m.company
    description := ""
    requiredSkills := splitComma m.requiredSkills
    preferredSkills := (splitComma m.preferredSkills).filter (fun s => s != "")
    experienceLevel := m.experienceLevel
    location := m.location
    remoteOk := m.remoteOk
    salaryMin := orUndef m.salaryMin
    salaryMax := orUndef m.salaryMax
    employmentType := m.employmentType
    combinedText := "" }

/-- The `CandidateVector` summary reconstructed from stored metadata in the
result loop of `findMatchingCandidates`. -/
def candidateVectorOfMetadata (id : String) (m : CandidateMetadata) : CandidateVector :=
  { id := id
    firstName := m.firstName
    lastName := m.lastName
    email := m.email
    skills := splitComma m.skills
    experience := m.experience
    location := m.location
    availability := m.availability
    salaryExpectation := orUndef m.salaryExpectation
    combinedText := "" }

/-- One iteration of the result loop of `findMatchingJobs`:
`score = distance !== null ? 1 - distance : 0`, `distance: distance || 0`. -/
def mkJobMatch (row : String × JobMetadata × Option ℚ) : JobMatch :=
  { id := row.1
    score := match row.2.2 with
      | some dist => 1 - dist
      | none => 0
    metadata := row.2.1
    distance := (row.2.2).getD 0
    job := jobVectorOfMetadata row.1 row.2.1 }

/-- One iteration of the result loop of `findMatchingCandidates`. -/
def mkCandidateMatch (row : String × CandidateMetadata × Option ℚ) : CandidateMatch :=
  { id := row.1
    score := match row.2.2 with
      | some dist => 1 - dist
      | none => 0
    metadata := row.2.1
    distance := (row.2.2).getD 0
    candidate := candidateVectorOfMetadata row.1 row.2.1 }

/-- `filters` argument handling of `findMatchingJobs` (an omitted filter
object contributes no predicates). -/
def jobWhereOf : Option JobFilters → WhereClause
  | none => []
  | some filters => buildJobWhere filters

/-- `filters` argument handling of `findMatchingCandidates`. -/
def candidateWhereOf : Option CandidateFilters → WhereClause
  | none => []
  | some filters => buildCandidateWhere filters

/-- `findMatchingJobs(candidateId, limit, filters)`: read the candidate's
stored document from the candidates collection (the relational store is not
consulted), re-embed it, and query the jobs collection under the translated
filters. -/
def findMatchingJobs (embedFail : String → Bool) (d : String → String → Option ℚ)
    (candIdx : VectorIndex CandidateMetadata) (jobIdx : VectorIndex JobMetadata)
    (candidateId : String) (limit : Nat) (filters : Option JobFilters) :
    Except SvcError (List JobMatch) :=
  match lookupEntry candIdx candidateId with
  | none => .error (.indexNotFound "Candidate" candidateId)
  | some entry =>
    if embedFail entry.document then
      .error (.embeddingFailed entry.document)
    else
      .ok ((queryIndex d jobIdx entry.document limit (jobWhereOf filters)
        jobMetaLookup).map mkJobMatch)

/-- `findMatchingCandidates(jobId, limit, filters)`: read the job's stored
document from the jobs collection, re-embed it, and query the candidates
collection under the translated filters. -/
def findMatchingCandidates (embedFail : String → Bool) (d : String → String → Option ℚ)
    (candIdx : VectorIndex CandidateMetadata) (jobIdx : VectorIndex JobMetadata)
    (jobId : String) (limit : Nat) (filters : Option CandidateFilters) :
    Except SvcError (List CandidateMatch) :=
  match lookupEntry jobIdx jobId with
  | none => .error (.indexNotFound "Job" jobId)
  | some entry =>
    if embedFail entry.document then
      .error (.embeddingFailed entry.document)
    else
      .ok ((queryIndex d candIdx entry.document limit (candidateWhereOf filters)
        candMetaLookup).map mkCandidateMatch)

/-- Specification predicate: whether `upsertCandidate` throws for this id —
the row is missing, or the embedding call for its canonical text fails.
(The outcome is independent of the index state.) -/
def candidateSyncFails (embedFail : String → Bool) (db : Db) (id : String) : Bool :=
  match findUniqueCandidate db id with
  | none => true
  | some candidate => embedFail (createCandidateText (candidateToVector candidate))

/-- The ids of a candidate-match call's results (empty on error); used to
state concrete counterexamples compactly. -/
def candidateMatchIds : Except SvcError (List CandidateMatch) → List String
  | .ok ms => ms.map (fun m => m.id)
  | .error _ => []

/-! ### Association-list lemmas for `where` clauses and index stores -/

theorem lookupKey_setKey_self (w : WhereClause) (k : String) (c : Cond) :
    lookupKey (setKey w k c) k = some c := by
  induction w with
  | nil => simp [setKey, lookupKey]
  | cons p rest ih =>
    by_cases h : p.1 = k
    · rw [setKey, if_pos h, lookupKey, List.find?_cons_of_pos _ (by simp)]
      rfl
    · rw [setKey, if_neg h, lookupKey, List.find?_cons_of_neg _ (by simp [h])]
      exact ih

theorem lookupKey_setKey_other (w : WhereClause) (k k' : String) (c : Cond)
    (h : k' ≠ k) : lookupKey (setKey w k c) k' = lookupKey w k' := by
  induction w with
  | nil =>
    rw [setKey, lookupKey, List.find?_cons_of_neg _ (by simp [Ne.symm h])]
    rfl
  | cons p rest ih =>
    by_cases hp : p.1 = k
    · subst hp
      rw [setKey, if_pos rfl, lookupKey, lookupKey,
        List.find?_cons_of_neg _ (by simp [Ne.symm h]),
        List.find?_cons_of_neg _ (by simp [Ne.symm h])]
    · rw [setKey, if_neg hp]
      by_cases hp' : p.1 = k'
      · rw [lookupKey, lookupKey, List.find?_cons_of_pos _ (by simp [hp']),
          List.find?_cons_of_pos _ (by simp [hp'])]
      · rw [lookupKey, lookupKey, List.find?_cons_of_neg _ (by simp [hp']),
          List.find?_cons_of_neg _ (by simp [hp'])]
        exact ih

theorem matchesWhere_lookupKey (f : String → Option MetaVal) (w : WhereClause)
    (k : String) (c : Cond) (hw : matchesWhere f w = true)
    (hk : lookupKey w k = some c) :
    ∃ v, f k = some v ∧ matchesCond v c = true := by
  induction w with
  | nil => simp [lookupKey] at hk
  | cons p rest ih =>
    rw [matchesWhere, List.all_cons, Bool.and_eq_true] at hw
    obtain ⟨hw1, hw2⟩ := hw
    by_cases hp : p.1 = k
    · rw [lookupKey] at hk
      rw [List.find?_cons_of_pos _ (by simp [hp])] at hk
      have hk2 : p.2 = c := by simpa using hk
      cases hf : f p.1 with
      | none => rw [hf] at hw1; simp at hw1
      | some v =>
        rw [hf] at hw1
        exact ⟨v, by rw [← hp]; exact hf, by rw [← hk2]; exact hw1⟩
    · rw [lookupKey] at hk
      rw [List.find?_cons_of_neg _ (by simp [hp])] at hk
      exact ih hw2 hk

theorem matchesWhere_eq_false (f : String → Option MetaVal) (w : WhereClause)
    (k : String) (c : Cond) (v : MetaVal) (hk : lookupKey w k = some c)
    (hv : f k = some v) (hc : matchesCond v c = false) :
    matchesWhere f w = false := by
  cases hmw : matchesWhere f w with
  | false => rfl
  | true =>
    obtain ⟨v', hv', hc'⟩ := matchesWhere_lookupKey f w k c hmw hk
    rw [hv] at hv'
    cases hv'
    rw [hc] at hc'
    exact absurd hc' (by simp)

theorem queryIndex_mem {α : Type} (d : String → String → Option ℚ)
    (idx : VectorIndex α) (qe : String) (limit : Nat) (w : WhereClause)
    (ml : α → String → Option MetaVal) (row : String × α × Option ℚ)
    (h : row ∈ queryIndex d idx qe limit w ml) :
    matchesWhere (ml row.2.1) w = true ∧
      ∃ p ∈ idx, row = (p.1, p.2.metadata, d qe p.2.embedding) := by
  unfold queryIndex at h
  have h1 := List.mem_of_mem_take h
  obtain ⟨p, hp, hrow⟩ := List.mem_map.mp h1
  refine ⟨?_, p, List.mem_of_mem_filter hp, hrow.symm⟩
  have hpf := List.of_mem_filter hp
  rw [← hrow]
  simpa using hpf

theorem lookupEntry_upsertEntry_self {α : Type} (idx : VectorIndex α)
    (id : String) (e : IndexEntry α) :
    lookupEntry (upsertEntry idx id e) id = some e := by
  simp [lookupEntry, upsertEntry, List.find?]

theorem lookupEntry_upsertEntry_other {α : Type} (idx : VectorIndex α)
    (id : String) (e : IndexEntry α) (k : String) (h : k ≠ id) :
    lookupEntry (upsertEntry idx id e) k = lookupEntry idx k := by
  rw [lookupEntry, upsertEntry, List.find?_cons_of_neg _ (by simp [Ne.symm h])]
  rw [lookupEntry]
  congr 1
  induction idx with
  | nil => rfl
  | cons p rest ih =>
    by_cases hp : p.1 = id
    · rw [List.filter_cons_of_neg (by simp [hp])]
      rw [List.find?_cons_of_neg _ (by simp [hp, Ne.symm h])]
      exact ih
    · rw [List.filter_cons_of_pos (by simp [hp])]
      by_cases hk : p.1 = k
      · rw [List.find?_cons_of_pos _ (by simp [hk]), List.find?_cons_of_pos _ (by simp [hk])]
      · rw [List.find?_cons_of_neg _ (by simp [hk]), List.find?_cons_of_neg _ (by simp [hk])]
        exact ih

/-! ### Batch-sync lemmas -/

theorem upsertCandidate_error_of_fails (embedFail : String → Bool) (db : Db)
    (id : String) (h : candidateSyncFails embedFail db id = true)
    (idx : VectorIndex CandidateMetadata) :
    ∃ e, upsertCandidate embedFail db idx id = .error e := by
  rw [candidateSyncFails] at h
  rw [upsertCandidate]
  cases hf : findUniqueCandidate db id with
  | none => exact ⟨_, rfl⟩
  | some c =>
    rw [hf] at h
    dsimp only at h
    exact ⟨.embeddingFailed (createCandidateText (candidateToVector c)), by simp [h]⟩

theorem syncFold_error {α : Type}
    (step : VectorIndex α → String → Except SvcError (VectorIndex α))
    (bad : String → Bool)
    (hstep : ∀ idx id, bad id = true → ∃ e, step idx id = Except.error e) :
    ∀ (ids : List String) (idx : VectorIndex α) (id : String),
      id ∈ ids → bad id = true → ∃ e, syncFold step ids idx = .error e := by
  intro ids
  induction ids with
  | nil => intro idx id h; simp at h
  | cons x rest ih =>
    intro idx id hmem hbad
    rcases List.mem_cons.mp hmem with h | h
    · subst h
      obtain ⟨e, he⟩ := hstep idx id hbad
      exact ⟨e, by simp [syncFold, he]⟩
    · cases hs : step idx x with
      | error e => exact ⟨e, by simp [syncFold, hs]⟩
      | ok idx2 =>
        obtain ⟨e, he⟩ := ih idx2 id h hbad
        exact ⟨e, by simp [syncFold, hs, he]⟩

theorem upsertJob_lookup_other (embedFail : String → Bool) (db : Db)
    (idx : VectorIndex JobMetadata) (id : String) (idx2 : VectorIndex JobMetadata)
    (h : upsertJob embedFail db idx id = .ok idx2) (k : String) (hk : k ≠ id) :
    lookupEntry idx2 k = lookupEntry idx k := by
  rw [upsertJob] at h
  cases hf : findUniqueJob db id with
  | none => rw [hf] at h; exact absurd h (by simp)
  | some j =>
    rw [hf] at h
    dsimp only at h
    split at h
    · exact absurd h (by simp)
    · cases h with
      | refl => exact lookupEntry_upsertEntry_other idx id _ k hk

theorem syncFold_keys {α : Type}
    (step : VectorIndex α → String → Except SvcError (VectorIndex α))
    (hstep : ∀ idx id idx2, step idx id = Except.ok idx2 →
      ∀ k, k ≠ id → lookupEntry idx2 k = lookupEntry idx k) :
    ∀ (ids : List String) (idx idx' : VectorIndex α),
      syncFold step ids idx = .ok idx' → ∀ k, k ∉ ids →
        lookupEntry idx' k = lookupEntry idx k := by
  intro ids
  induction ids with
  | nil =>
    intro idx idx' h k _
    rw [syncFold] at h
    cases h with
    | refl => rfl
  | cons x rest ih =>
    intro idx idx' h k hk
    rw [syncFold] at h
    cases hs : step idx x with
    | error e => rw [hs] at h; exact absurd h (by simp)
    | ok idx2 =>
      rw [hs] at h
      have h1 : lookupEntry idx' k = lookupEntry idx2 k :=
        ih idx2 idx' h k (fun hm => hk (List.mem_cons_of_mem x hm))
      have h2 : lookupEntry idx2 k = lookupEntry idx k :=
        hstep idx x idx2 hs k (fun he => hk (he ▸ List.mem_cons_self x rest))
      rw [h1, h2]

/-! ### Comma join/split round-trip lemmas -/

theorem jsSplitComma_no_comma (x : List Char) (h : ',' ∉ x) :
    jsSplitComma x = [x] := by
  induction x with
  | nil => rfl
  | cons c cs ih =>
    have hc : ¬c = ',' := fun e => h (e ▸ List.mem_cons_self c cs)
    have h' : ',' ∉ cs := fun hm => h (List.mem_cons_of_mem c hm)
    rw [jsSplitComma, if_neg hc, ih h']

theorem jsSplitComma_append (x r : List Char) (h : ',' ∉ x) :
    jsSplitComma (x ++ ',' :: r) = x :: jsSplitComma r := by
  induction x with
  | nil => simp [jsSplitComma]
  | cons c cs ih =>
    have hc : ¬c = ',' := fun e => h (e ▸ List.mem_cons_self c cs)
    have h' : ',' ∉ cs := fun hm => h (List.mem_cons_of_mem c hm)
    rw [List.cons_append, jsSplitComma, if_neg hc, ih h']

theorem jsSplitComma_joinCommaChars (L : List (List Char)) (hne : L ≠ [])
    (h : ∀ x ∈ L, ',' ∉ x) : jsSplitComma (joinCommaChars L) = L := by
  induction L with
  | nil => exact absurd rfl hne
  | cons x rest ih =>
    cases rest with
    | nil =>
      rw [joinCommaChars, jsSplitComma_no_comma x (h x (List.mem_cons_self x []))]
    | cons y ys =>
      have hrest := ih (by simp)
        (fun z hz => h z (List.mem_cons_of_mem x hz))
      rw [joinCommaChars, jsSplitComma_append x _ (h x (List.mem_cons_self x _)),
        hrest]

theorem splitComma_joinComma (l : List String) (hne : l ≠ [])
    (h : ∀ s ∈ l, ',' ∉ s.data) : splitComma (joinComma l) = l := by
  rw [splitComma, joinComma]
  have hd : (String.mk (joinCommaChars (l.map String.data))).data =
      joinCommaChars (l.map String.data) := rfl
  rw [hd, jsSplitComma_joinCommaChars (l.map String.data)
    (by simpa using hne)
    (by intro x hx
        obtain ⟨s, hs, rfl⟩ := List.mem_map.mp hx
        exact h s hs)]
  rw [List.map_map]
  have : (String.mk ∘ String.data) = id := by
    funext s
    rfl
  rw [this, List.map_id]

deriving instance DecidableEq for Except

/-! ### Concrete sample data, used by witnesses and counterexamples -/

/-- A synced sample candidate. -/
def sampleCandidate : Candidate :=
  { id := "c1", firstName := "A", lastName := "B", email := "a@x"
    skills := ["go"], experience := 5, location := "Ist"
    availability := "Full", salary_expectation := some 80000 }

/-- A second sample candidate, syncable without error. -/
def sampleCandidate2 : Candidate :=
  { id := "c2", firstName := "C", lastName := "D", email := "c@x"
    skills := ["ts"], experience := 3, location := "Ank"
    availability := "Now", salary_expectation := none }

/-- A candidate whose experience (2) lies below the minimum used in the
experience-range counterexample. -/
def lowCandidate : Candidate :=
  { id := "c-low", firstName := "E", lastName := "F", email := "e@x"
    skills := ["go"], experience := 2, location := "Ist"
    availability := "Now", salary_expectation := none }

/-- An active sample job. -/
def sampleJob : JobPosition :=
  { id := "j1", title := "Dev", company := "Acme", description := "d"
    required_skills := ["go"], preferred_skills := []
    experience_level := "MID", location := "Ist", remote_ok := true
    salary_min := some 50000, salary_max := some 90000
    employment_type := "FT", status := .ACTIVE }

/-- An inactive sample job. -/
def inactiveJob : JobPosition :=
  { id := "j2", title := "Ops", company := "Acme", description := "d"
    required_skills := [], preferred_skills := []
    experience_level := "MID", location := "Ist", remote_ok := false
    salary_min := none, salary_max := none
    employment_type := "FT", status := .INACTIVE }

/-- A job whose relational `salary_max` is absent. -/
def noSalaryJob : JobPosition :=
  { id := "j3", title := "QA", company := "Acme", description := "d"
    required_skills := [], preferred_skills := []
    experience_level := "MID", location := "Ist", remote_ok := false
    salary_min := none, salary_max := none
    employment_type := "FT", status := .ACTIVE }

/-- Sample relational store. -/
def sampleDb : Db := { candidates := [sampleCandidate, sampleCandidate2], jobs := [sampleJob, inactiveJob] }

/-- A relational store with no active job. -/
def inactiveDb : Db := { candidates := [], jobs := [inactiveJob] }

/-- An embedding oracle that never fails. -/
def noFail : String → Bool := fun _ => false

/-- An embedding oracle that fails exactly on the first sample candidate's
canonical text. -/
def failOnFirst : String → Bool :=
  fun t => t == createCandidateText (candidateToVector sampleCandidate)

/-- A distance oracle reporting distance 1/4 for every pair. -/
def constDist : String → String → Option ℚ := fun _ _ => some (1/4)

/-- The index entry produced by a successful sync of a candidate. -/
def candEntry (c : Candidate) : IndexEntry CandidateMetadata :=
  { embedding := createCandidateText (candidateToVector c)
    metadata := candidateMetadata c
    document := createCandidateText (candidateToVector c) }

/-- The index entry produced by a successful sync of a job. -/
def jobEntry (j : JobPosition) : IndexEntry JobMetadata :=
  { embedding := createJobText (jobToVector j)
    metadata := jobMetadata j
    document := createJobText (jobToVector j) }

/-- Candidates collection holding the synced sample candidate. -/
def sampleCandIdx : VectorIndex CandidateMetadata := [("c1", candEntry sampleCandidate)]

/-- Candidates collection holding only the low-experience candidate. -/
def lowCandIdx : VectorIndex CandidateMetadata := [("c-low", candEntry lowCandidate)]

/-- Jobs collection holding the synced sample job. -/
def sampleJobIdx : VectorIndex JobMetadata := [("j1", jobEntry sampleJob)]

/-- A filter object defining both `minExperience` and `maxExperience`. -/
def bothExpFilters : CandidateFilters := { minExperience := some 5, maxExperience := some 10 }

/-! ### Claims -/

/-- Claim C1 counterexample: in `syncAllCandidates` a failing per-record sync
is rethrown, not skipped.  On a store enumerating two candidates where the
first one's embedding call fails, the batch returns that error — it does not
continue and upsert the remaining record, even though the remaining record
would sync without error. -/
theorem claim_C1_counterexample :
    syncAllCandidates failOnFirst sampleDb [] =
      .error (.embeddingFailed (createCandidateText (candidateToVector sampleCandidate)))
    ∧ syncCandidateIds sampleDb = ["c1", "c2"]
    ∧ candidateSyncFails failOnFirst sampleDb "c2" = false := by
  decide

/-- Claim C1 (amended): if the per-record sync (`upsertCandidate`) fails for
one record in the enumerated set, `syncAllCandidates` aborts with an error —
the failure is logged and rethrown, so it is fatal to the whole batch and the
remaining records are not upserted. -/
theorem claim_C1_amended_batch_aborts (embedFail : String → Bool) (db : Db)
    (idx : VectorIndex CandidateMetadata) (id : String)
    (hmem : id ∈ syncCandidateIds db)
    (hfail : candidateSyncFails embedFail db id = true) :
    ∃ e, syncAllCandidates embedFail db idx = .error e :=
  syncFold_error (upsertCandidate embedFail db) (candidateSyncFails embedFail db)
    (fun i x hx => upsertCandidate_error_of_fails embedFail db x hx i)
    (syncCandidateIds db) idx id hmem hfail

/-- Witness for the amended C1 at a concrete input. -/
theorem claim_C1_witness :
    "c1" ∈ syncCandidateIds sampleDb ∧
    candidateSyncFails failOnFirst sampleDb "c1" = true ∧
    ∃ e, syncAllCandidates failOnFirst sampleDb [] = .error e :=
  ⟨by decide, by decide,
    claim_C1_amended_batch_aborts failOnFirst sampleDb [] "c1" (by decide) (by decide)⟩

/-- Claim C2 counterexample: with both `minExperience = 5` and
`maxExperience = 10` supplied, `findMatchingCandidates` returns the synced
candidate whose experience is 2 — the second assignment to
`whereClause.experience` overwrote the lower bound, so a candidate below the
minimum is not excluded. -/
theorem claim_C2_counterexample :
    candidateMatchIds (findMatchingCandidates noFail constDist lowCandIdx
      sampleJobIdx "j1" 10 (some bothExpFilters)) = ["c-low"]
    ∧ (candidateMetadata lowCandidate).experience = 2
    ∧ bothExpFilters.minExperience = some 5 := by
  decide

/-- Claim C2 (amended): when both `minExperience` and `maxExperience` are
defined, the `experience` predicate sent to the candidate index holds only
the upper bound `experience ≤ maxExperience` (the `$gte` assignment is
overwritten by the `$lte` assignment), so the query predicate guarantees
only that no returned candidate has experience above the maximum; the lower
bound is not enforced. -/
theorem claim_C2_amended_max_overwrites_min (filters : CandidateFilters)
    (a b : Int) (h1 : filters.minExperience = some a)
    (h2 : filters.maxExperience = some b) :
    lookupKey (buildCandidateWhere filters) "experience" = some (.lte b) ∧
    ∀ m : CandidateMetadata,
      matchesWhere (candMetaLookup m) (buildCandidateWhere filters) = true →
        m.experience ≤ b := by
  rcases filters with ⟨loc, avail, mine, maxe, msal⟩
  dsimp only at h1 h2
  subst h1
  subst h2
  have hkey : lookupKey (buildCandidateWhere
      ⟨loc, avail, some a, some b, msal⟩) "experience" = some (.lte b) := by
    cases msal with
    | none =>
      simp only [buildCandidateWhere]
      exact lookupKey_setKey_self _ _ _
    | some v =>
      simp only [buildCandidateWhere]
      rw [lookupKey_setKey_other _ _ _ _ (by decide)]
      exact lookupKey_setKey_self _ _ _
  refine ⟨hkey, ?_⟩
  intro m hm
  obtain ⟨v, hv, hc⟩ := matchesWhere_lookupKey _ _ _ _ hm hkey
  have hl : candMetaLookup m "experience" = some (.int m.experience) := rfl
  rw [hl] at hv
  cases hv
  exact of_decide_eq_true hc

/-- Witness for the amended C2 at a concrete input. -/
theorem claim_C2_witness :
    bothExpFilters.minExperience = some 5 ∧
    bothExpFilters.maxExperience = some 10 ∧
    lookupKey (buildCandidateWhere bothExpFilters) "experience" = some (.lte 10) :=
  ⟨by decide, by decide,
    (claim_C2_amended_max_overwrites_min bothExpFilters 5 10 (by decide) (by decide)).1⟩

/-- Claim C3: `findMatchingJobs` translates a caller `salaryMin = x` into the
index predicate `salaryMax ≥ x` and a caller `salaryMax = y` into
`salaryMin ≤ y` — range conditions on the opposite-named fields (an overlap
test, not equality constraints on the same-named fields) — and consequently
every job passing the predicate has stored `salaryMax ≥ x` and
`salaryMin ≤ y`. -/
theorem claim_C3_salary_overlap (filters : JobFilters) (x y : Int)
    (h1 : filters.salaryMin = some x) (h2 : filters.salaryMax = some y) :
    lookupKey (buildJobWhere filters) "salaryMax" = some (.gte x) ∧
    lookupKey (buildJobWhere filters) "salaryMin" = some (.lte y) ∧
    ∀ m : JobMetadata,
      matchesWhere (jobMetaLookup m) (buildJobWhere filters) = true →
        x ≤ m.salaryMax ∧ m.salaryMin ≤ y := by
  rcases filters with ⟨loc, rem, exl, emt, smin, smax⟩
  dsimp only at h1 h2
  subst h1
  subst h2
  have hmax : lookupKey (buildJobWhere
      ⟨loc, rem, exl, emt, some x, some y⟩) "salaryMax" = some (.gte x) := by
    simp only [buildJobWhere]
    rw [lookupKey_setKey_other _ _ _ _ (by decide)]
    exact lookupKey_setKey_self _ _ _
  have hmin : lookupKey (buildJobWhere
      ⟨loc, rem, exl, emt, some x, some y⟩) "salaryMin" = some (.lte y) := by
    simp only [buildJobWhere]
    exact lookupKey_setKey_self _ _ _
  refine ⟨hmax, hmin, ?_⟩
  intro m hm
  constructor
  · obtain ⟨v, hv, hc⟩ := matchesWhere_lookupKey _ _ _ _ hm hmax
    have hl : jobMetaLookup m "salaryMax" = some (.int m.salaryMax) := rfl
    rw [hl] at hv
    cases hv
    exact of_decide_eq_true hc
  · obtain ⟨v, hv, hc⟩ := matchesWhere_lookupKey _ _ _ _ hm hmin
    have hl : jobMetaLookup m "salaryMin" = some (.int m.salaryMin) := rfl
    rw [hl] at hv
    cases hv
    exact of_decide_eq_true hc

/-- A filter object carrying both salary bounds, for the C3 witness. -/
def bothSalaryFilters : JobFilters := { salaryMin := some 80000, salaryMax := some 120000 }

/-- Witness for C3 at a concrete input. -/
theorem claim_C3_witness :
    bothSalaryFilters.salaryMin = some 80000 ∧
    bothSalaryFilters.salaryMax = some 120000 ∧
    lookupKey (buildJobWhere bothSalaryFilters) "salaryMax" = some (.gte 80000) ∧
    lookupKey (buildJobWhere bothSalaryFilters) "salaryMin" = some (.lte 120000) :=
  ⟨by decide, by decide,
    (claim_C3_salary_overlap bothSalaryFilters 80000 120000 (by decide) (by decide)).1,
    (claim_C3_salary_overlap bothSalaryFilters 80000 120000 (by decide) (by decide)).2.1⟩

/-- Claim C4: when an id has no entry in its vector index, the match queries
fail with the index-side "not found in vector database" error; the sync path
(`upsertCandidate`) raises the distinct relational "with id ... not found"
error.  The two errors are different constructors with different message
strings (so the controller's substring test can tell them apart), and
`findMatchingJobs`/`findMatchingCandidates` take no relational-store
argument at all — the decision is made from the index alone. -/
theorem claim_C4_not_synced_error (embedFail : String → Bool)
    (d : String → String → Option ℚ) (candIdx : VectorIndex CandidateMetadata)
    (jobIdx : VectorIndex JobMetadata) (id : String) (limit : Nat)
    (jf : Option JobFilters) (cf : Option CandidateFilters) (db : Db)
    (idx : VectorIndex CandidateMetadata)
    (hc : lookupEntry candIdx id = none) (hj : lookupEntry jobIdx id = none)
    (hdb : findUniqueCandidate db id = none) :
    findMatchingJobs embedFail d candIdx jobIdx id limit jf =
      .error (.indexNotFound "Candidate" id) ∧
    findMatchingCandidates embedFail d candIdx jobIdx id limit cf =
      .error (.indexNotFound "Job" id) ∧
    upsertCandidate embedFail db idx id = .error (.storeNotFound "Candidate" id) ∧
    (∀ e1 i1 e2 i2, SvcError.indexNotFound e1 i1 ≠ SvcError.storeNotFound e2 i2) ∧
    (∀ ent i, errorMessage (.indexNotFound ent i) ≠ errorMessage (.storeNotFound ent i)) := by
  refine ⟨?_, ?_, ?_, ?_, ?_⟩
  · rw [findMatchingJobs, hc]
  · rw [findMatchingCandidates, hj]
  · rw [upsertCandidate, hdb]
  · intro e1 i1 e2 i2 h
    exact SvcError.noConfusion h
  · intro ent i h
    have hlen := congrArg String.length h
    have l1 : (" not found in vector database" : String).length = 29 := rfl
    have l2 : (" with id " : String).length = 9 := rfl
    have l3 : (" not found" : String).length = 10 := rfl
    have l4 : (" " : String).length = 1 := rfl
    simp only [errorMessage, String.length_append, l1, l2, l3, l4] at hlen
    omega

/-- Witness for C4 at a concrete input: the id `c9` is nowhere. -/
theorem claim_C4_witness :
    lookupEntry sampleCandIdx "c9" = none ∧
    lookupEntry sampleJobIdx "c9" = none ∧
    findUniqueCandidate sampleDb "c9" = none ∧
    findMatchingJobs noFail constDist sampleCandIdx sampleJobIdx "c9" 10 none =
      .error (.indexNotFound "Candidate" "c9") ∧
    upsertCandidate noFail sampleDb sampleCandIdx "c9" =
      .error (.storeNotFound "Candidate" "c9") := by
  refine ⟨by decide, by decide, by decide, ?_, ?_⟩
  · exact (claim_C4_not_synced_error noFail constDist sampleCandIdx sampleJobIdx
      "c9" 10 none none sampleDb sampleCandIdx (by decide) (by decide) (by decide)).1
  · exact (claim_C4_not_synced_error noFail constDist sampleCandIdx sampleJobIdx
      "c9" 10 none none sampleDb sampleCandIdx (by decide) (by decide) (by decide)).2.2.1

/-- Claim C5: every match returned by `findMatchingJobs` or
`findMatchingCandidates` is built by the fixed result transform; whenever the
index reports a distance `dd` for an entry, the returned score is `1 - dd`
and the returned distance field is `dd` itself, uniformly for every result
(when the client library reports a `null` distance the code falls back to
score `0`, which the `row.2.2 = some dd` hypothesis makes explicit). -/
theorem claim_C5_score_transform (ef ef2 : String → Bool)
    (d d2 : String → String → Option ℚ)
    (candIdx candIdx2 : VectorIndex CandidateMetadata)
    (jobIdx jobIdx2 : VectorIndex JobMetadata) (cid jid : String)
    (limit limit2 : Nat) (jf : Option JobFilters) (cf : Option CandidateFilters)
    (ms : List JobMatch) (ms2 : List CandidateMatch) (m : JobMatch)
    (m2 : CandidateMatch)
    (h : findMatchingJobs ef d candIdx jobIdx cid limit jf = .ok ms)
    (hm : m ∈ ms)
    (h2 : findMatchingCandidates ef2 d2 candIdx2 jobIdx2 jid limit2 cf = .ok ms2)
    (hm2 : m2 ∈ ms2) :
    (∃ entry, lookupEntry candIdx cid = some entry ∧
      ∃ row ∈ queryIndex d jobIdx entry.document limit (jobWhereOf jf) jobMetaLookup,
        m = mkJobMatch row ∧
        ∀ dd : ℚ, row.2.2 = some dd → m.score = 1 - dd ∧ m.distance = dd) ∧
    (∃ entry, lookupEntry jobIdx2 jid = some entry ∧
      ∃ row ∈ queryIndex d2 candIdx2 entry.document limit2 (candidateWhereOf cf) candMetaLookup,
        m2 = mkCandidateMatch row ∧
        ∀ dd : ℚ, row.2.2 = some dd → m2.score = 1 - dd ∧ m2.distance = dd) := by
  constructor
  · cases hl : lookupEntry candIdx cid with
    | none => rw [findMatchingJobs, hl] at h; exact absurd h (by simp)
    | some entry =>
      rw [findMatchingJobs, hl] at h
      dsimp only at h
      split at h
      · exact absurd h (by simp)
      · cases h with
        | refl =>
          obtain ⟨row, hrow, hmrow⟩ := List.mem_map.mp hm
          refine ⟨entry, rfl, row, hrow, hmrow.symm, ?_⟩
          intro dd hdd
          rw [← hmrow]
          constructor
          · show (match row.2.2 with
              | some dist => 1 - dist
              | none => (0 : ℚ)) = 1 - dd
            rw [hdd]
          · show (row.2.2).getD 0 = dd
            rw [hdd]
            rfl
  · cases hl : lookupEntry jobIdx2 jid with
    | none => rw [findMatchingCandidates, hl] at h2; exact absurd h2 (by simp)
    | some entry =>
      rw [findMatchingCandidates, hl] at h2
      dsimp only at h2
      split at h2
      · exact absurd h2 (by simp)
      · cases h2 with
        | refl =>
          obtain ⟨row, hrow, hmrow⟩ := List.mem_map.mp hm2
          refine ⟨entry, rfl, row, hrow, hmrow.symm, ?_⟩
          intro dd hdd
          rw [← hmrow]
          constructor
          · show (match row.2.2 with
              | some dist => 1 - dist
              | none => (0 : ℚ)) = 1 - dd
            rw [hdd]
          · show (row.2.2).getD 0 = dd
            rw [hdd]
            rfl

/-- The query row produced for the sample job under `constDist`. -/
def sampleJobRow : String × JobMetadata × Option ℚ :=
  ("j1", jobMetadata sampleJob, some (1/4))

/-- The query row produced for the sample candidate under `constDist`. -/
def sampleCandRow : String × CandidateMetadata × Option ℚ :=
  ("c1", candidateMetadata sampleCandidate, some (1/4))

/-- Witness for C5 at a concrete input. -/
theorem claim_C5_witness :
    (∃ entry, lookupEntry sampleCandIdx "c1" = some entry ∧
      ∃ row ∈ queryIndex constDist sampleJobIdx entry.document 10
          (jobWhereOf none) jobMetaLookup,
        mkJobMatch sampleJobRow = mkJobMatch row ∧
        ∀ dd : ℚ, row.2.2 = some dd →
          (mkJobMatch sampleJobRow).score = 1 - dd ∧
          (mkJobMatch sampleJobRow).distance = dd) ∧
    (∃ entry, lookupEntry sampleJobIdx "j1" = some entry ∧
      ∃ row ∈ queryIndex constDist sampleCandIdx entry.document 10
          (candidateWhereOf none) candMetaLookup,
        mkCandidateMatch sampleCandRow = mkCandidateMatch row ∧
        ∀ dd : ℚ, row.2.2 = some dd →
          (mkCandidateMatch sampleCandRow).score = 1 - dd ∧
          (mkCandidateMatch sampleCandRow).distance = dd) :=
  claim_C5_score_transform noFail noFail constDist constDist
    sampleCandIdx sampleCandIdx sampleJobIdx sampleJobIdx "c1" "j1" 10 10
    none none [mkJobMatch sampleJobRow] [mkCandidateMatch sampleCandRow]
    (mkJobMatch sampleJobRow) (mkCandidateMatch sampleCandRow)
    (by rfl) (by simp) (by rfl) (by simp)

/-- Claim C6: `syncAllJobs` enumerates only relational jobs whose status is
`ACTIVE`, and on success the jobs index is unchanged at every id outside
that enumeration — inactive and filled jobs are never upserted by the
batch. -/
theorem claim_C6_only_active_jobs (embedFail : String → Bool) (db : Db)
    (idx idx' : VectorIndex JobMetadata)
    (hok : syncAllJobs embedFail db idx = .ok idx') :
    (∀ j ∈ activeJobs db, j.status = JobStatus.ACTIVE) ∧
    ∀ k, k ∉ (activeJobs db).map (fun j => j.id) →
      lookupEntry idx' k = lookupEntry idx k := by
  constructor
  · intro j hj
    rw [activeJobs] at hj
    have := (List.mem_filter.mp hj).2
    simpa using this
  · intro k hk
    rw [syncAllJobs] at hok
    exact syncFold_keys (upsertJob embedFail db)
      (fun i id i2 hstep k' hk' => upsertJob_lookup_other embedFail db i id i2 hstep k' hk')
      ((activeJobs db).map (fun j => j.id)) idx idx' hok k hk

/-- Witness for C6 at a concrete input: a store whose only job is inactive
syncs to an unchanged (empty) index. -/
theorem claim_C6_witness :
    syncAllJobs noFail inactiveDb [] = .ok [] ∧
    (∀ j ∈ activeJobs inactiveDb, j.status = JobStatus.ACTIVE) ∧
    (∀ k, k ∉ (activeJobs inactiveDb).map (fun j => j.id) →
      lookupEntry ([] : VectorIndex JobMetadata) k =
        lookupEntry ([] : VectorIndex JobMetadata) k) :=
  ⟨by rfl, claim_C6_only_active_jobs noFail inactiveDb [] [] (by rfl)⟩

/-- Claim C7 counterexample: the comma round-trip fails on the empty list.
`[].join(',')` stores the empty string, and `''.split(',')` reads back
`[""]`, a one-element list of the empty string, not the original `[]`. -/
theorem claim_C7_counterexample :
    splitComma (joinComma ([] : List String)) = [""] ∧
    ([""] : List String) ≠ [] := by
  decide

/-- Claim C7 (amended): serializing a list to a comma-joined string and
splitting it back yields the original list for every nonempty list whose
elements contain no comma; the empty list instead reads back as `[""]` on
the unfiltered paths (candidate `skills`, job `requiredSkills`), while the
`preferredSkills` read path filters out empty segments and so maps the
stored empty list back to `[]`. -/
theorem claim_C7_amended_roundtrip (l : List String) (hne : l ≠ [])
    (h : ∀ s ∈ l, ',' ∉ s.data) :
    splitComma (joinComma l) = l ∧
    (splitComma (joinComma ([] : List String))).filter (fun s => s != "") = [] :=
  ⟨splitComma_joinComma l hne h, by decide⟩

/-- Witness for the amended C7 at a concrete input. -/
theorem claim_C7_witness :
    (["go", "sql"] : List String) ≠ [] ∧
    (∀ s ∈ (["go", "sql"] : List String), ',' ∉ s.data) ∧
    splitComma (joinComma ["go", "sql"]) = ["go", "sql"] :=
  ⟨by decide, by decide,
    (claim_C7_amended_roundtrip ["go", "sql"] (by decide) (by decide)).1⟩

/-- Claim C8: canonical-text generation is a pure function of the listed
fields.  Two candidate vectors agreeing on first name, last name, skills,
experience, location and availability produce byte-identical candidate
text (they may differ in id, email, salary expectation), and two job
vectors agreeing on title, company, description, the two skills lists,
experience level, location, remote flag and employment type produce
byte-identical job text (they may differ in id and the salary bounds). -/
theorem claim_C8_canonical_determinism (c1 c2 : CandidateVector)
    (j1 j2 : JobVector)
    (hfn : c1.firstName = c2.firstName) (hln : c1.lastName = c2.lastName)
    (hsk : c1.skills = c2.skills) (hex : c1.experience = c2.experience)
    (hlo : c1.location = c2.location) (hav : c1.availability = c2.availability)
    (hti : j1.title = j2.title) (hco : j1.company = j2.company)
    (hde : j1.description = j2.description)
    (hrs : j1.requiredSkills = j2.requiredSkills)
    (hps : j1.preferredSkills = j2.preferredSkills)
    (hel : j1.experienceLevel = j2.experienceLevel)
    (hjl : j1.location = j2.location) (hro : j1.remoteOk = j2.remoteOk)
    (het : j1.employmentType = j2.employmentType) :
    createCandidateText c1 = createCandidateText c2 ∧
    createJobText j1 = createJobText j2 := by
  constructor
  · rw [createCandidateText, createCandidateText, hfn, hln, hsk, hex, hlo, hav]
  · rw [createJobText, createJobText, hti, hco, hde, hrs, hps, hel, hjl, hro, het]

/-- A candidate vector differing from `candidateToVector sampleCandidate`
only in id, email and salary expectation. -/
def sampleVectorAlias : CandidateVector :=
  { candidateToVector sampleCandidate with
      id := "other", email := "z@x", salaryExpectation := none }

/-- A job vector differing from `jobToVector sampleJob` only in id and
salary bounds. -/
def sampleJobVectorAlias : JobVector :=
  { jobToVector sampleJob with
      id := "other", salaryMin := none, salaryMax := none }

/-- Witness for C8 at a concrete input: records equal on the listed fields
but different elsewhere canonicalize identically. -/
theorem claim_C8_witness :
    createCandidateText (candidateToVector sampleCandidate) =
      createCandidateText sampleVectorAlias ∧
    createJobText (jobToVector sampleJob) = createJobText sampleJobVectorAlias :=
  claim_C8_canonical_determinism (candidateToVector sampleCandidate)
    sampleVectorAlias (jobToVector sampleJob) sampleJobVectorAlias
    rfl rfl rfl rfl rfl rfl rfl rfl rfl rfl rfl rfl rfl rfl rfl

/-- Claim C9: enum-like metadata fields are stored lowercased (candidate
`availability`; job `experienceLevel` and `employmentType`), every equality
filter on them lowercases the caller's value before querying, and the
resulting equality test therefore compares the two lowercased forms —
case-insensitive matching at the public interface. -/
theorem claim_C9_lowercase_invariant (c : Candidate) (j : JobPosition)
    (cf : CandidateFilters) (jf : JobFilters) (av el et : String)
    (hav : cf.availability = some av) (hel : jf.experienceLevel = some el)
    (het : jf.employmentType = some et) :
    (candidateMetadata c).availability = jsToLower c.availability ∧
    (jobMetadata j).experienceLevel = jsToLower j.experience_level ∧
    (jobMetadata j).employmentType = jsToLower j.employment_type ∧
    lookupKey (buildCandidateWhere cf) "availability" = some (.eqS (jsToLower av)) ∧
    lookupKey (buildJobWhere jf) "experienceLevel" = some (.eqS (jsToLower el)) ∧
    lookupKey (buildJobWhere jf) "employmentType" = some (.eqS (jsToLower et)) ∧
    (matchesCond (.str (candidateMetadata c).availability) (.eqS (jsToLower av)) = true ↔
      jsToLower c.availability = jsToLower av) ∧
    (matchesCond (.str (jobMetadata j).experienceLevel) (.eqS (jsToLower el)) = true ↔
      jsToLower j.experience_level = jsToLower el) ∧
    (matchesCond (.str (jobMetadata j).employmentType) (.eqS (jsToLower et)) = true ↔
      jsToLower j.employment_type = jsToLower et) := by
  refine ⟨rfl, rfl, rfl, ?_, ?_, ?_, ?_, ?_, ?_⟩
  · rcases cf with ⟨loc, avail, mine, maxe, msal⟩
    dsimp only at hav
    subst hav
    cases mine <;> cases maxe <;> cases msal <;>
      · simp only [buildCandidateWhere]
        repeat rw [lookupKey_setKey_other _ _ _ _ (by decide)]
        exact lookupKey_setKey_self _ _ _
  · rcases jf with ⟨loc, rem, exl, emt, smin, smax⟩
    dsimp only at hel
    subst hel
    cases emt <;> cases smin <;> cases smax <;>
      · simp only [buildJobWhere]
        repeat rw [lookupKey_setKey_other _ _ _ _ (by decide)]
        exact lookupKey_setKey_self _ _ _
  · rcases jf with ⟨loc, rem, exl, emt, smin, smax⟩
    dsimp only at het
    subst het
    cases smin <;> cases smax <;>
      · simp only [buildJobWhere]
        repeat rw [lookupKey_setKey_other _ _ _ _ (by decide)]
        exact lookupKey_setKey_self _ _ _
  · simp [matchesCond, candidateMetadata]
  · simp [matchesCond, jobMetadata]
  · simp [matchesCond, jobMetadata]

/-- A filter object with mixed-case enum values, for the C9 witness. -/
def mixedCaseCandFilters : CandidateFilters := { availability := some "FULL" }

/-- A job filter object with mixed-case enum values, for the C9 witness. -/
def mixedCaseJobFilters : JobFilters :=
  { experienceLevel := some "Mid", employmentType := some "Ft" }

/-- Witness for C9 at a concrete input. -/
theorem claim_C9_witness :
    (candidateMetadata sampleCandidate).availability = jsToLower "Full" ∧
    lookupKey (buildCandidateWhere mixedCaseCandFilters) "availability" =
      some (.eqS (jsToLower "FULL")) ∧
    (matchesCond (.str (candidateMetadata sampleCandidate).availability)
      (.eqS (jsToLower "FULL")) = true ↔
        jsToLower "Full" = jsToLower "FULL") := by
  have h := claim_C9_lowercase_invariant sampleCandidate sampleJob
    mixedCaseCandFilters mixedCaseJobFilters "FULL" "Mid" "Ft" rfl rfl rfl
  exact ⟨h.1, h.2.2.2.1, h.2.2.2.2.2.2.1⟩

/-- Claim C10: a job whose relational `salary_max` is absent (or zero) is
stored with metadata `salaryMax = 0`, so any `findMatchingJobs` query with a
`salaryMin` filter `x > 0` produces a `salaryMax ≥ x` predicate the job's
metadata fails — the job is excluded from every result list even though its
salary range is unspecified rather than known to be below `x`. -/
theorem claim_C10_zero_salary_excluded (j : JobPosition) (filters : JobFilters)
    (x : Int) (h1 : j.salary_max = none) (h2 : filters.salaryMin = some x)
    (h3 : 0 < x) :
    (jobMetadata j).salaryMax = 0 ∧
    matchesWhere (jobMetaLookup (jobMetadata j)) (buildJobWhere filters) = false ∧
    ∀ (embedFail : String → Bool) (d : String → String → Option ℚ)
      (candIdx : VectorIndex CandidateMetadata) (jobIdx : VectorIndex JobMetadata)
      (cid : String) (limit : Nat) (ms : List JobMatch),
      findMatchingJobs embedFail d candIdx jobIdx cid limit (some filters) = .ok ms →
        ∀ m ∈ ms, m.metadata ≠ jobMetadata j := by
  have hmeta : (jobMetadata j).salaryMax = 0 := by
    rw [jobMetadata]
    rw [h1]
    rfl
  have hkey : lookupKey (buildJobWhere filters) "salaryMax" = some (.gte x) := by
    rcases filters with ⟨loc, rem, exl, emt, smin, smax⟩
    dsimp only at h2
    subst h2
    cases smax with
    | none =>
      simp only [buildJobWhere]
      exact lookupKey_setKey_self _ _ _
    | some v =>
      simp only [buildJobWhere]
      rw [lookupKey_setKey_other _ _ _ _ (by decide)]
      exact lookupKey_setKey_self _ _ _
  have hfail : matchesWhere (jobMetaLookup (jobMetadata j)) (buildJobWhere filters) = false := by
    refine matchesWhere_eq_false _ _ "salaryMax" (.gte x) (.int 0) hkey ?_ ?_
    · have hl : jobMetaLookup (jobMetadata j) "salaryMax" =
          some (.int (jobMetadata j).salaryMax) := rfl
      rw [hl, hmeta]
    · rw [matchesCond]
      simp
      omega
  refine ⟨hmeta, hfail, ?_⟩
  intro embedFail d candIdx jobIdx cid limit ms hok m hm hmeq
  cases hl : lookupEntry candIdx cid with
  | none => rw [findMatchingJobs, hl] at hok; exact absurd hok (by simp)
  | some entry =>
    rw [findMatchingJobs, hl] at hok
    dsimp only at hok
    split at hok
    · exact absurd hok (by simp)
    · cases hok with
      | refl =>
        obtain ⟨row, hrow, hmrow⟩ := List.mem_map.mp hm
        have hmatch := (queryIndex_mem d jobIdx entry.document limit
          (jobWhereOf (some filters)) jobMetaLookup row hrow).1
        have hmetarow : m.metadata = row.2.1 := by rw [← hmrow]; rfl
        rw [hmetarow] at hmeq
        rw [hmeq] at hmatch
        rw [jobWhereOf] at hmatch
        rw [hfail] at hmatch
        exact Bool.noConfusion hmatch

/-- A filter object with a positive `salaryMin`, for the C10 witness. -/
def posSalaryFilters : JobFilters := { salaryMin := some 60000 }

/-- Witness for C10 at a concrete input. -/
theorem claim_C10_witness :
    noSalaryJob.salary_max = none ∧
    posSalaryFilters.salaryMin = some 60000 ∧
    (jobMetadata noSalaryJob).salaryMax = 0 ∧
    matchesWhere (jobMetaLookup (jobMetadata noSalaryJob))
      (buildJobWhere posSalaryFilters) = false := by
  have h := claim_C10_zero_salary_excluded noSalaryJob posSalaryFilters 60000
    rfl rfl (by decide)
  exact ⟨rfl, rfl, h.1, h.2.1⟩
